import Mathlib

/-!
# ATLHECTB: command-line driver and per-event accumulator

A shallow embedding of `ATLHECTB.cc` (function `main`) and of
`src/ATLHECTBEventAction.cc` (`BeginOfEventAction`, `EndOfEventAction`).

`main` only talks to the external toolkit, so it is embedded as a function
from its inputs to the ordered list of observable actions it performs (the
trace) together with the way it terminates.  Toolkit calls are recorded as
actions and are assumed to return to the caller.  The two build-time switches
of the source are ordinary parameters here: `mt` stands for
`G4MULTITHREADED` being defined and `ver` for `G4VERSION_NUMBER`.
-/

set_option autoImplicit false

namespace ATLHECTB

/-! ## Observable actions -/

/-- The three objects handed to `runManager->SetUserInitialization`. -/
inductive UserInit where
  | DetConstruction
  | physList
  | ActInitialization
deriving DecidableEq, Repr

/-- One observable action of `main`, in source order of appearance. -/
inductive Action where
  /-- One line sent to `G4cerr`, ended by `G4endl`. -/
  | cerr (line : String)
  /-- One line sent to `G4cout`, ended by `G4endl`. -/
  | cout (line : String)
  /-- A read of `argv[i]`. -/
  | readArgv (i : Nat)
  /-- The call `new G4UIExecutive(argc, argv, session)`. -/
  | newUIExecutive (argc : Nat) (argv : List String) (session : String)
  /-- The call `new G4MTRunManager` (true) or `new G4RunManager` (false). -/
  | newRunManager (multithreaded : Bool)
  | SetNumberOfThreads (n : Int)
  | newDetectorConstruction
  | SetUserInitialization (what : UserInit)
  | newPhysListFactory
  | GetReferencePhysList (name : String)
  | newStepLimiterPhysics
  | RegisterPhysics
  | FTFTuningsInstance
  | SetTuneApplicabilityState (tune : Nat) (state : Nat)
  | newActionInitialization
  | newVisExecutive
  | visManagerInitialize
  | GetUIpointer
  | ApplyCommand (command : String)
  | IsGUI
  | SessionStart
  | deleteUI
  | deleteVisManager
  | deleteRunManager
deriving DecidableEq, Repr

/-- How `main` terminates. -/
inductive Exit where
  /-- The statement `return code;` (or falling off the end, code 0). -/
  | returned (code : Int)
  /-- A `G4String` was assigned from `argv[argc]`, the null pointer that ends
  the argument vector: the behaviour of the process is undefined from there. -/
  | nullArgument
deriving DecidableEq, Repr

/-- The trace of a run of `main` and the way it ended. -/
structure Run where
  trace : List Action
  exit : Exit
deriving DecidableEq, Repr

/-! ## Usage messages -/

/-- The function `PrintUsageError::UsageError`: two lines on the error stream. -/
def UsageError : List Action :=
  [ Action.cerr "->ATLHECTB usage: ",
    Action.cerr "ATLHECTB [-m macro] [-u UIsession] [-t nThreads] [-pl PhysicsList] [-tune FTFTuneName (optional)]" ]

/-- The function `PrintFTFTuneUsageError::FTFTuneUsageError`: three outputs
on the error stream, the last one holding the four valid names. -/
def FTFTuneUsageError : List Action :=
  [ Action.cerr "Wrong FTF Alternative Tune Name selected. ",
    Action.cerr "Geant4-11.1.0 valid names are: ",
    Action.cerr "default\nbaryon-tune2022-v0\npion-tune2022-v0\ncombined-tune2022-v0" ]

/-! ## The argument loop -/

/-- The local variables of `main` that the argument loop assigns.
`macroName` is the source variable `macro`. -/
structure Args where
  macroName : String
  session : String
  custom_pl : String
  nthreads : Int
  UseFTFTune : Bool
  FTFTuneName : String
deriving DecidableEq, Repr

/-- The initial values of the locals (source lines 69 to 76). -/
def Args.init : Args :=
  { macroName := "", session := "", custom_pl := "FTFP_BERT", nthreads := 0,
    UseFTFTune := false, FTFTuneName := "" }

/-- The `if / else if` chain of the loop body on the token `flag = argv[i]`:
the assignment to perform with the value `argv[i+1]`, or `none` for the final
`else` branch (usage error).  `ConvertToInt` is `G4UIcommand::ConvertToInt`. -/
def applyFlag (mt : Bool) (ConvertToInt : String → Int) (flag : String) (a : Args) :
    Option (String → Args) :=
  if flag = "-m" then some (fun v => { a with macroName := v })
  else if flag = "-u" then some (fun v => { a with session := v })
  else if flag = "-pl" then some (fun v => { a with custom_pl := v })
  else if mt = true ∧ flag = "-t" then some (fun v => { a with nthreads := ConvertToInt v })
  else if flag = "-tune" then some (fun v => { a with UseFTFTune := true, FTFTuneName := v })
  else none

/-- How the argument loop ends. -/
inductive LoopExit where
  /-- The loop condition `i < argc` failed: the locals hold `a`. -/
  | done (a : Args)
  /-- The final `else`: usage error printed, `return 1`. -/
  | usage
  /-- A recognised flag at `argv[argc-1]`: `argv[argc]` was read. -/
  | nullArgument
deriving DecidableEq, Repr

/-- A run of the argument loop: its actions, the number of times the body was
entered, and how it ended. -/
structure LoopRun where
  trace : List Action
  iterations : Nat
  exit : LoopExit
deriving DecidableEq, Repr

/-- One more iteration in front of the rest of the loop. -/
def LoopRun.after (acts : List Action) (r : LoopRun) : LoopRun :=
  { trace := acts ++ r.trace, iterations := r.iterations + 1, exit := r.exit }

/-- The loop `for (G4int i = 1; i < argc; i = i + 2)` of `main`, entered at
index `i` with locals `a`; `argc` is `argv.length`. -/
def argLoop (mt : Bool) (ConvertToInt : String → Int) (argv : List String)
    (i : Nat) (a : Args) : LoopRun :=
  if h : i < argv.length then
    match applyFlag mt ConvertToInt (argv.get ⟨i, h⟩) a with
    | none =>
        { trace := Action.readArgv i :: UsageError, iterations := 1, exit := LoopExit.usage }
    | some assign =>
        match argv.get? (i + 1) with
        | none =>
            { trace := [Action.readArgv i, Action.readArgv (i + 1)], iterations := 1,
              exit := LoopExit.nullArgument }
        | some v =>
            LoopRun.after [Action.readArgv i, Action.readArgv (i + 1)]
              (argLoop mt ConvertToInt argv (i + 2) (assign v))
  else
    { trace := [], iterations := 0, exit := LoopExit.done a }
termination_by argv.length - i
decreasing_by omega

/-! ## The rest of `main` -/

/-- Source lines 96 to 129: the UI executive (only without a macro), the run
manager, the detector construction and the physics list. -/
def bootstrap (mt : Bool) (argv : List String) (a : Args) : List Action :=
  (if a.macroName.length = 0 then
      [Action.newUIExecutive argv.length argv a.session] else []) ++
  [Action.newRunManager mt] ++
  (if mt = true ∧ a.nthreads > 0 then [Action.SetNumberOfThreads a.nthreads] else []) ++
  [ Action.newDetectorConstruction,
    Action.SetUserInitialization UserInit.DetConstruction,
    Action.newPhysListFactory,
    Action.GetReferencePhysList a.custom_pl,
    Action.newStepLimiterPhysics,
    Action.RegisterPhysics,
    Action.SetUserInitialization UserInit.physList ]

/-- Source lines 133 to 146, the FTF tuning block: its actions, and whether it
ended in `return 1`.  The block is compiled only when
`G4VERSION_NUMBER >= 1110`. -/
def ftfTuning (ver : Nat) (a : Args) : List Action × Bool :=
  if ver ≥ 1110 then
    if a.UseFTFTune = true then
      let progress := Action.cout
        ("----------> Using FTF alternative tune: " ++ a.FTFTuneName ++ " <----------")
      if a.FTFTuneName = "default" then
        ([Action.FTFTuningsInstance, progress, Action.SetTuneApplicabilityState 0 1], false)
      else if a.FTFTuneName = "baryon-tune2022-v0" then
        ([Action.FTFTuningsInstance, progress, Action.SetTuneApplicabilityState 1 1], false)
      else if a.FTFTuneName = "pion-tune2022-v0" then
        ([Action.FTFTuningsInstance, progress, Action.SetTuneApplicabilityState 2 1], false)
      else if a.FTFTuneName = "combined-tune2022-v0" then
        ([Action.FTFTuningsInstance, progress, Action.SetTuneApplicabilityState 3 1], false)
      else
        (Action.FTFTuningsInstance :: progress :: FTFTuneUsageError, true)
    else ([Action.FTFTuningsInstance], false)
  else ([], false)

/-- Source lines 150 to 160: action initialization, visualization manager and
the pointer to the UI manager. -/
def actionAndVis : List Action :=
  [ Action.newActionInitialization,
    Action.SetUserInitialization UserInit.ActInitialization,
    Action.newVisExecutive,
    Action.visManagerInitialize,
    Action.GetUIpointer ]

/-- Source lines 164 to 177: macro mode or interactive session.  `isGUI` is the
answer of `ui->IsGUI()`. -/
def dispatch (isGUI : Bool) (a : Args) : List Action :=
  if a.macroName.length ≠ 0 then
    [ Action.ApplyCommand "/process/em/verbose 0",
      Action.ApplyCommand "/process/had/verbose 0",
      Action.ApplyCommand ("/control/execute " ++ a.macroName) ]
  else
    [Action.ApplyCommand "/control/execute ATLHECTB_init_vis.mac", Action.IsGUI] ++
    (if isGUI = true then [Action.ApplyCommand "/control/execute ATLHECTB_gui.mac"] else []) ++
    [Action.SessionStart, Action.deleteUI]

/-- Source lines 181 and 182. -/
def termination : List Action :=
  [Action.deleteVisManager, Action.deleteRunManager]

/-- The function `main( int argc, char** argv )`, with `argc = argv.length`. -/
def main (mt : Bool) (ver : Nat) (ConvertToInt : String → Int) (isGUI : Bool)
    (argv : List String) : Run :=
  if argv.length > 11 then
    { trace := UsageError, exit := Exit.returned 1 }
  else
    let loop := argLoop mt ConvertToInt argv 1 Args.init
    match loop.exit with
    | LoopExit.usage => { trace := loop.trace, exit := Exit.returned 1 }
    | LoopExit.nullArgument => { trace := loop.trace, exit := Exit.nullArgument }
    | LoopExit.done a =>
        let tuning := ftfTuning ver a
        if tuning.2 = true then
          { trace := loop.trace ++ bootstrap mt argv a ++ tuning.1, exit := Exit.returned 1 }
        else
          { trace := loop.trace ++ bootstrap mt argv a ++ tuning.1 ++ actionAndVis ++
              dispatch isGUI a ++ termination,
            exit := Exit.returned 0 }

/-! ## Reading a trace -/

/-- The lines sent to the error stream, in order. -/
def cerrLines (t : List Action) : List String :=
  t.filterMap (fun x => match x with
    | Action.cerr line => some line
    | _ => none)

/-- The commands handed to `UImanager->ApplyCommand`, in order. -/
def uiCommands (t : List Action) : List String :=
  t.filterMap (fun x => match x with
    | Action.ApplyCommand command => some command
    | _ => none)

/-- The arguments of the `SetTuneApplicabilityState` calls, in order. -/
def tuneCalls (t : List Action) : List (Nat × Nat) :=
  t.filterMap (fun x => match x with
    | Action.SetTuneApplicabilityState tune state => some (tune, state)
    | _ => none)

/-- The names handed to `physListFactory->GetReferencePhysList`, in order. -/
def physListNames (t : List Action) : List String :=
  t.filterMap (fun x => match x with
    | Action.GetReferencePhysList name => some name
    | _ => none)

/-- The indices of `argv` that were read, in order. -/
def argvReads (t : List Action) : List Nat :=
  t.filterMap (fun x => match x with
    | Action.readArgv i => some i
    | _ => none)

/-- A trace made of reads of `argv` only, all below the index `bound`. -/
def readsBelow (bound : Nat) (t : List Action) : Prop :=
  ∀ x ∈ t, ∃ j, x = Action.readArgv j ∧ j < bound

/-- The lines sent to the output stream, in order. -/
def coutLines (t : List Action) : List String :=
  t.filterMap (fun x => match x with
    | Action.cout line => some line
    | _ => none)

/-- A command handed to `UImanager->ApplyCommand`. -/
def Action.isCommand : Action → Bool
  | Action.ApplyCommand _ => true
  | _ => false

/-- The `new` expressions of `main`: the heap-allocated objects. -/
def Action.isAllocation : Action → Bool
  | Action.newUIExecutive _ _ _ => true
  | Action.newRunManager _ => true
  | Action.newDetectorConstruction => true
  | Action.newPhysListFactory => true
  | Action.newStepLimiterPhysics => true
  | Action.newActionInitialization => true
  | Action.newVisExecutive => true
  | _ => false

/-- The `delete` expressions of `main`. -/
def Action.isDelete : Action → Bool
  | Action.deleteUI => true
  | Action.deleteVisManager => true
  | Action.deleteRunManager => true
  | _ => false

/-- Everything that concerns the interactive session object `ui`. -/
def Action.isSession : Action → Bool
  | Action.newUIExecutive _ _ _ => true
  | Action.IsGUI => true
  | Action.SessionStart => true
  | Action.deleteUI => true
  | _ => false

/-- The actions on the interactive session and the UI commands together: the
part of a trace that fixes their relative order. -/
def Action.isSessionOrCommand (x : Action) : Bool :=
  x.isSession || x.isCommand

/-! ## Argument vectors -/

/-- The flag/value pairs of a list of tokens: `(l[0], l[1])`, `(l[2], l[3])`,
and so on; a last token without a value forms no pair. -/
def pairsOf : List String → List (String × String)
  | flag :: value :: rest => (flag, value) :: pairsOf rest
  | _ => []

/-- The flag/value pairs that follow the program name:
`(argv[1], argv[2])`, `(argv[3], argv[4])`, ... -/
def argPairs (argv : List String) : List (String × String) :=
  pairsOf argv.tail

/-- The values of the pairs of a list of tokens whose flag is `flag`, in
order. -/
def pairValues (flag : String) (l : List String) : List String :=
  (pairsOf l).filterMap (fun p => if p.1 = flag then some p.2 else none)

/-- The values of the pairs of `argv` whose flag is `flag`, in order. -/
def valuesOf (flag : String) (argv : List String) : List String :=
  pairValues flag argv.tail

/-- The value of the last pair of `argv` whose flag is `flag`, if any. -/
def lastValue (flag : String) (argv : List String) : Option String :=
  (valuesOf flag argv).getLast?

/-- The flags the parser knows: `-m`, `-u`, `-pl`, `-tune`, and `-t` in a
multithreaded build only. -/
def recognised (mt : Bool) (flag : String) : Prop :=
  flag = "-m" ∨ flag = "-u" ∨ flag = "-pl" ∨ flag = "-tune" ∨ (mt = true ∧ flag = "-t")

instance (mt : Bool) (flag : String) : Decidable (recognised mt flag) := by
  unfold recognised; infer_instance

/-- A well-formed argument vector: at most 11 entries, the program name
followed by complete flag/value pairs, every flag recognised. -/
def wellFormed (mt : Bool) (argv : List String) : Prop :=
  argv.length ≤ 11 ∧ argv.length % 2 = 1 ∧ ∀ p ∈ argPairs argv, recognised mt p.1

instance (mt : Bool) (argv : List String) : Decidable (wellFormed mt argv) := by
  unfold wellFormed; infer_instance

/-- The four tune names of the FTF tuning block. -/
def validTunes : List String :=
  ["default", "baryon-tune2022-v0", "pion-tune2022-v0", "combined-tune2022-v0"]

/-- The tune number that goes with a valid tune name: its position in
`validTunes`, 0 for `default` up to 3 for `combined-tune2022-v0`. -/
def tuneNumber (name : String) : Nat :=
  validTunes.indexOf name

/-- A tune error: the tuning block is compiled in (toolkit version at least
11.1.0) and the last `-tune` value of the vector is not a valid name. -/
def tuneError (ver : Nat) (argv : List String) : Prop :=
  ver ≥ 1110 ∧ ∃ v, lastValue "-tune" argv = some v ∧ v ∉ validTunes

instance (ver : Nat) (argv : List String) : Decidable (tuneError ver argv) :=
  decidable_of_iff (ver ≥ 1110 ∧ ∃ v ∈ (lastValue "-tune" argv).toList, v ∉ validTunes)
    (by simp [tuneError])

/-- The progress line of the tuning block, source line 136. -/
def progressLine (name : String) : Action :=
  Action.cout ("----------> Using FTF alternative tune: " ++ name ++ " <----------")

/-! ## The argument loop on the tokens still to read -/

/-- The argument loop retold by recursion on `argv.drop i`, the tokens from
index `i` on; `argLoop_eq_loopOn` shows that it is the same loop. -/
def loopOn (mt : Bool) (ConvertToInt : String → Int) :
    Nat → List String → Args → LoopRun
  | _, [], a => { trace := [], iterations := 0, exit := LoopExit.done a }
  | i, [flag], a =>
      match applyFlag mt ConvertToInt flag a with
      | none =>
          { trace := Action.readArgv i :: UsageError, iterations := 1, exit := LoopExit.usage }
      | some _ =>
          { trace := [Action.readArgv i, Action.readArgv (i + 1)], iterations := 1,
            exit := LoopExit.nullArgument }
  | i, flag :: v :: rest, a =>
      match applyFlag mt ConvertToInt flag a with
      | none =>
          { trace := Action.readArgv i :: UsageError, iterations := 1, exit := LoopExit.usage }
      | some assign =>
          LoopRun.after [Action.readArgv i, Action.readArgv (i + 1)]
            (loopOn mt ConvertToInt (i + 2) rest (assign v))

/-! ## The per-event accumulator (`ATLHECTBEventAction.cc`) -/

/-- The data members of `ATLHECTBEventAction`.  The type `D` stands for
`G4double`: the code only stores and copies such values, and uses the
constant `0.`. -/
structure ATLHECTBEventAction (D : Type) where
  PDGID : Int
  vertexkenergy : D
  eleakage : D

/-- Modelled from the spec: the output table of the analysis manager, booked
outside the two source files as the columns `(int particleId,
double vertexKineticEnergy, double leakageEnergy)` with ids 0, 1, 2.  It holds
the column values of the row being filled and the rows added so far
(append-only). -/
structure AnalysisManager (D : Type) where
  icolumn0 : Int
  dcolumn1 : D
  dcolumn2 : D
  rows : List (Int × D × D)

/-- The call `analysisManager->FillNtupleIColumn(id, value)`: column 0 is the
only integer column. -/
def AnalysisManager.FillNtupleIColumn {D : Type} (m : AnalysisManager D) (id : Nat)
    (value : Int) : AnalysisManager D :=
  if id = 0 then { m with icolumn0 := value } else m

/-- The call `analysisManager->FillNtupleDColumn(id, value)`: columns 1 and 2
are the double columns. -/
def AnalysisManager.FillNtupleDColumn {D : Type} (m : AnalysisManager D) (id : Nat)
    (value : D) : AnalysisManager D :=
  if id = 1 then { m with dcolumn1 := value }
  else if id = 2 then { m with dcolumn2 := value }
  else m

/-- The call `analysisManager->AddNtupleRow()`: the column values become one
more row at the end of the table. -/
def AnalysisManager.AddNtupleRow {D : Type} (m : AnalysisManager D) : AnalysisManager D :=
  { m with rows := m.rows ++ [(m.icolumn0, m.dcolumn1, m.dcolumn2)] }

/-- The constructor `ATLHECTBEventAction::ATLHECTBEventAction()`. -/
def ATLHECTBEventAction.new {D : Type} [Zero D] : ATLHECTBEventAction D :=
  { PDGID := 0, vertexkenergy := 0, eleakage := 0 }

/-- The method `ATLHECTBEventAction::BeginOfEventAction`. -/
def BeginOfEventAction {D : Type} [Zero D] (_self : ATLHECTBEventAction D) :
    ATLHECTBEventAction D :=
  { PDGID := 0, vertexkenergy := 0, eleakage := 0 }

/-- The method `ATLHECTBEventAction::EndOfEventAction`, on the state of the
analysis manager singleton. -/
def EndOfEventAction {D : Type} (self : ATLHECTBEventAction D) (m : AnalysisManager D) :
    AnalysisManager D :=
  (((m.FillNtupleIColumn 0 self.PDGID).FillNtupleDColumn 1 self.vertexkenergy).FillNtupleDColumn
    2 self.eleakage).AddNtupleRow

/-- The callbacks of one event: any function that mutates the three fields
between the begin and the end of the event. -/
abbrev Callbacks (D : Type) := ATLHECTBEventAction D → ATLHECTBEventAction D

/-- One simulated event: begin, callbacks, end. -/
def simulateEvent {D : Type} [Zero D] (callbacks : Callbacks D)
    (s : ATLHECTBEventAction D × AnalysisManager D) :
    ATLHECTBEventAction D × AnalysisManager D :=
  let self := callbacks (BeginOfEventAction s.1)
  (self, EndOfEventAction self s.2)

/-- A sequence of simulated events, one after the other. -/
def simulateEvents {D : Type} [Zero D] (events : List (Callbacks D))
    (s : ATLHECTBEventAction D × AnalysisManager D) :
    ATLHECTBEventAction D × AnalysisManager D :=
  events.foldl (fun st callbacks => simulateEvent callbacks st) s

/-- The row that an event with the given callbacks must produce: the fields
after the callbacks ran on zeroed fields, as (particle id, vertex kinetic
energy, leakage energy). -/
def eventRow {D : Type} [Zero D] (callbacks : Callbacks D) : Int × D × D :=
  let self := callbacks { PDGID := 0, vertexkenergy := 0, eleakage := 0 }
  (self.PDGID, self.vertexkenergy, self.eleakage)

/-! ## The loop on indices is the loop on the remaining tokens -/

theorem argLoop_eq_loopOn (mt : Bool) (conv : String → Int) (argv : List String) :
    ∀ (n i : Nat) (a : Args), argv.length - i ≤ n →
      argLoop mt conv argv i a = loopOn mt conv i (argv.drop i) a := by
  intro n
  induction n with
  | zero =>
      intro i a hn
      have hle : argv.length ≤ i := by omega
      rw [argLoop, dif_neg (by omega), List.drop_eq_nil_of_le hle]
      rfl
  | succ n ih =>
      intro i a hn
      by_cases h : i < argv.length
      · rw [argLoop, dif_pos h, List.drop_eq_getElem_cons h]
        by_cases h1 : i + 1 < argv.length
        · rw [List.drop_eq_getElem_cons h1]
          have hget : argv.get? (i + 1) = some argv[i + 1] := by
            simp [List.getElem?_eq_getElem h1]
          simp only [loopOn, hget, List.get_eq_getElem]
          cases hf : applyFlag mt conv argv[i] a with
          | none => rfl
          | some assign =>
              simp only []
              rw [ih (i + 2) (assign argv[i + 1]) (by omega)]
        · have hnil : argv.drop (i + 1) = [] := List.drop_eq_nil_of_le (by omega)
          have hget : argv.get? (i + 1) = none := by
            simp [List.getElem?_eq_none (by omega : argv.length ≤ i + 1)]
          simp only [loopOn, hget, hnil, List.get_eq_getElem]
      · rw [argLoop, dif_neg h, List.drop_eq_nil_of_le (by omega)]
        rfl

/-- The loop as `main` enters it is the loop on the tokens after the program
name. -/
theorem argLoop_main (mt : Bool) (conv : String → Int) (argv : List String) (a : Args) :
    argLoop mt conv argv 1 a = loopOn mt conv 1 argv.tail a := by
  rw [argLoop_eq_loopOn mt conv argv argv.length 1 a (by omega), List.drop_one]

/-! ## The pairs of a vector, by index -/

/-- The pairs of a list of tokens are the tokens at an even offset, each with
the token that follows it. -/
theorem mem_pairsOf_iff (f v : String) :
    ∀ (n : Nat) (l : List String), l.length ≤ n →
      ((f, v) ∈ pairsOf l ↔ ∃ k, k % 2 = 0 ∧ l.get? k = some f ∧ l.get? (k + 1) = some v) := by
  intro n
  induction n with
  | zero =>
      intro l hlen
      have hl : l = [] := List.eq_nil_of_length_eq_zero (by omega)
      subst hl
      simp [pairsOf]
  | succ n ih =>
      intro l hlen
      match l, hlen with
      | [], _ => simp [pairsOf]
      | [x], _ =>
          simp only [pairsOf, List.not_mem_nil, false_iff, not_exists]
          rintro k ⟨_, _, h2⟩
          simp at h2
      | x :: y :: rest, hlen =>
          have hrest := ih rest (by simp at hlen; omega)
          simp only [pairsOf, List.mem_cons, Prod.mk.injEq, hrest]
          constructor
          · rintro (⟨hx, hy⟩ | ⟨k, hk, h1, h2⟩)
            · exact ⟨0, rfl, by simp [hx], by simp [hy]⟩
            · exact ⟨k + 2, by omega, by simpa using h1, by simpa using h2⟩
          · rintro ⟨k, hk, h1, h2⟩
            rcases k with _ | _ | k
            · left
              simp at h1 h2
              exact ⟨h1.symm, h2.symm⟩
            · omega
            · right
              exact ⟨k, by omega, by simpa using h1, by simpa using h2⟩

/-- The pairs of an argument vector are the tokens at an odd index, each with
the token that follows it. -/
theorem mem_argPairs_iff (f v : String) (argv : List String) :
    (f, v) ∈ argPairs argv ↔
      ∃ i, i % 2 = 1 ∧ argv.get? i = some f ∧ argv.get? (i + 1) = some v := by
  unfold argPairs
  rw [mem_pairsOf_iff f v argv.tail.length argv.tail (le_refl _)]
  cases argv with
  | nil => simp
  | cons x t =>
      simp only [List.tail_cons]
      constructor
      · rintro ⟨k, hk, h1, h2⟩
        exact ⟨k + 1, by omega, by simpa using h1, by simpa using h2⟩
      · rintro ⟨i, hi, h1, h2⟩
        rcases i with _ | k
        · omega
        · exact ⟨k, by omega, by simpa using h1, by simpa using h2⟩

/-- The values of a flag are the tokens that follow it at a flag position. -/
theorem mem_valuesOf_iff (flag v : String) (argv : List String) :
    v ∈ valuesOf flag argv ↔
      ∃ i, i % 2 = 1 ∧ argv.get? i = some flag ∧ argv.get? (i + 1) = some v := by
  rw [← mem_argPairs_iff]
  unfold valuesOf pairValues argPairs
  simp only [List.mem_filterMap, Prod.exists]
  constructor
  · rintro ⟨f, w, hmem, hpick⟩
    by_cases hf : f = flag
    · simp only [hf, if_true, Option.some.injEq] at hpick
      rw [← hf, ← hpick]
      exact hmem
    · simp [hf] at hpick
  · intro hmem
    exact ⟨flag, v, hmem, by simp⟩

/-- Well-formedness by index: at most 11 entries, an odd number of them, and a
recognised flag at every odd index. -/
theorem wellFormed_iff (mt : Bool) (argv : List String) :
    wellFormed mt argv ↔
      argv.length ≤ 11 ∧ argv.length % 2 = 1 ∧
        ∀ i flag, i % 2 = 1 → argv.get? i = some flag → recognised mt flag := by
  unfold wellFormed
  constructor
  · rintro ⟨h11, hodd, hrec⟩
    refine ⟨h11, hodd, ?_⟩
    intro i flag hi hget
    have hlt : i < argv.length := by
      by_contra hge
      rw [List.get?_eq_none.mpr (by omega)] at hget
      cases hget
    have hlt1 : i + 1 < argv.length := by omega
    exact hrec (flag, argv.get ⟨i + 1, hlt1⟩)
      ((mem_argPairs_iff _ _ argv).mpr ⟨i, hi, hget, List.get?_eq_get hlt1⟩)
  · rintro ⟨h11, hodd, hrec⟩
    refine ⟨h11, hodd, ?_⟩
    rintro ⟨f, v⟩ hp
    obtain ⟨i, hi, h1, _⟩ := (mem_argPairs_iff f v argv).mp hp
    exact hrec i f hi h1

/-! ## Facts about one iteration -/

theorem applyFlag_eq_none_iff (mt : Bool) (conv : String → Int) (flag : String) (a : Args) :
    applyFlag mt conv flag a = none ↔ ¬ recognised mt flag := by
  unfold applyFlag recognised
  constructor
  · intro h
    split_ifs at h
    tauto
  · intro h
    split_ifs <;> tauto

/-- A recognised flag assigns its own variable and leaves the others alone. -/
theorem applyFlag_some (mt : Bool) (conv : String → Int) (flag : String) (a : Args)
    (h : recognised mt flag) :
    ∃ assign, applyFlag mt conv flag a = some assign ∧ ∀ v,
      (assign v).macroName = (if flag = "-m" then v else a.macroName) ∧
      (assign v).session = (if flag = "-u" then v else a.session) ∧
      (assign v).custom_pl = (if flag = "-pl" then v else a.custom_pl) ∧
      (assign v).UseFTFTune = (if flag = "-tune" then true else a.UseFTFTune) ∧
      (assign v).FTFTuneName = (if flag = "-tune" then v else a.FTFTuneName) := by
  rcases h with h | h | h | h | ⟨hmt, h⟩ <;> subst h
  · exact ⟨fun v => { a with macroName := v }, by simp [applyFlag], fun v => by simp⟩
  · exact ⟨fun v => { a with session := v }, by simp [applyFlag], fun v => by simp⟩
  · exact ⟨fun v => { a with custom_pl := v }, by simp [applyFlag], fun v => by simp⟩
  · exact ⟨fun v => { a with UseFTFTune := true, FTFTuneName := v }, by simp [applyFlag],
      fun v => by simp⟩
  · exact ⟨fun v => { a with nthreads := conv v }, by simp [applyFlag, hmt], fun v => by simp⟩

theorem pairValues_cons_cons (flag f v : String) (rest : List String) :
    pairValues flag (f :: v :: rest) =
      if f = flag then v :: pairValues flag rest else pairValues flag rest := by
  unfold pairValues
  by_cases h : f = flag <;> simp [pairsOf, h]

theorem getLast_step (f flag v d : String) (xs : List String) :
    ((if f = flag then v :: xs else xs).getLast?).getD d =
      xs.getLast?.getD (if f = flag then v else d) := by
  by_cases h : f = flag
  · simp only [h, if_true, List.getLast?_cons]
    rfl
  · simp [h]

/-! ## The loop on complete, recognised pairs -/

theorem readsBelow_mono {b c : Nat} {t : List Action} (h : readsBelow b t) (hbc : b ≤ c) :
    readsBelow c t := by
  intro x hx
  obtain ⟨j, hj, hlt⟩ := h x hx
  exact ⟨j, hj, by omega⟩

/-- On `2 * n` tokens forming recognised pairs the loop runs `n` times, reads
only the indices of these tokens, and leaves in each variable the value of the
last pair with its flag (or what the variable held before). -/
theorem loopOn_pairs (mt : Bool) (conv : String → Int) :
    ∀ (n : Nat) (l : List String) (i : Nat) (a : Args),
      l.length = 2 * n → (∀ p ∈ pairsOf l, recognised mt p.1) →
      ∃ a', (loopOn mt conv i l a).exit = LoopExit.done a' ∧
        (loopOn mt conv i l a).iterations = n ∧
        readsBelow (i + l.length) (loopOn mt conv i l a).trace ∧
        a'.macroName = ((pairValues "-m" l).getLast?).getD a.macroName ∧
        a'.session = ((pairValues "-u" l).getLast?).getD a.session ∧
        a'.custom_pl = ((pairValues "-pl" l).getLast?).getD a.custom_pl ∧
        a'.FTFTuneName = ((pairValues "-tune" l).getLast?).getD a.FTFTuneName ∧
        (a'.UseFTFTune = true ↔ (a.UseFTFTune = true ∨ pairValues "-tune" l ≠ [])) := by
  intro n
  induction n with
  | zero =>
      intro l i a hlen _
      have hl : l = [] := List.eq_nil_of_length_eq_zero (by omega)
      subst hl
      refine ⟨a, rfl, rfl, ?_, ?_⟩
      · intro x hx
        simp [loopOn] at hx
      · simp [pairValues, pairsOf]
  | succ n ih =>
      intro l i a hlen hrec
      match l, hlen, hrec with
      | [], hlen, _ => simp at hlen
      | [_], hlen, _ => simp at hlen; omega
      | f :: v :: rest, hlen, hrec =>
          have hf : recognised mt f := hrec (f, v) (by simp [pairsOf])
          have hrest : ∀ p ∈ pairsOf rest, recognised mt p.1 := fun p hp =>
            hrec p (by simp [pairsOf, hp])
          obtain ⟨assign, hassign, hfields⟩ := applyFlag_some mt conv f a hf
          obtain ⟨hm, hu, hpl, huse, hname⟩ := hfields v
          have hlen2 : rest.length = 2 * n := by simp at hlen; omega
          obtain ⟨a', hexit, hiter, hreads, h1, h2, h3, h4, h5⟩ :=
            ih rest (i + 2) (assign v) hlen2 hrest
          have hloop : loopOn mt conv i (f :: v :: rest) a =
              LoopRun.after [Action.readArgv i, Action.readArgv (i + 1)]
                (loopOn mt conv (i + 2) rest (assign v)) := by
            simp only [loopOn, hassign]
          refine ⟨a', ?_, ?_, ?_, ?_, ?_, ?_, ?_, ?_⟩
          · rw [hloop]; exact hexit
          · rw [hloop]; simp [LoopRun.after, hiter]
          · rw [hloop]
            intro x hx
            simp only [LoopRun.after, List.mem_append, List.mem_cons, List.mem_singleton,
              List.not_mem_nil, or_false] at hx
            rcases hx with (hx | hx) | hx
            · exact ⟨i, hx, by simp⟩
            · exact ⟨i + 1, hx, by simp⟩
            · obtain ⟨j, hj, hlt⟩ := hreads x hx
              exact ⟨j, hj, by simp at hlt ⊢; omega⟩
          · rw [h1, hm, pairValues_cons_cons, getLast_step]
          · rw [h2, hu, pairValues_cons_cons, getLast_step]
          · rw [h3, hpl, pairValues_cons_cons, getLast_step]
          · rw [h4, hname, pairValues_cons_cons, getLast_step]
          · rw [h5, huse, pairValues_cons_cons]
            by_cases hft : f = "-tune" <;> simp [hft]

/-- The tokens after the program name of a well-formed vector. -/
theorem wellFormed_tail {mt : Bool} {argv : List String} (h : wellFormed mt argv) :
    ∃ n, argv.tail.length = 2 * n ∧ n ≤ 5 ∧ argv.length = 2 * n + 1 ∧
      ∀ p ∈ pairsOf argv.tail, recognised mt p.1 := by
  obtain ⟨hle, hodd, hrec⟩ := h
  refine ⟨argv.length / 2, ?_, ?_, ?_, hrec⟩
  · rw [List.length_tail]; omega
  · omega
  · omega

/-- What the argument loop of `main` does on a well-formed vector. -/
theorem argLoop_wellFormed (mt : Bool) (conv : String → Int) (argv : List String)
    (h : wellFormed mt argv) :
    ∃ a, (argLoop mt conv argv 1 Args.init).exit = LoopExit.done a ∧
      readsBelow argv.length (argLoop mt conv argv 1 Args.init).trace ∧
      a.macroName = (lastValue "-m" argv).getD "" ∧
      a.session = (lastValue "-u" argv).getD "" ∧
      a.custom_pl = (lastValue "-pl" argv).getD "FTFP_BERT" ∧
      a.FTFTuneName = (lastValue "-tune" argv).getD "" ∧
      (a.UseFTFTune = true ↔ valuesOf "-tune" argv ≠ []) := by
  obtain ⟨n, hlen, _, hargc, hrec⟩ := wellFormed_tail h
  obtain ⟨a, hexit, _, hreads, h1, h2, h3, h4, h5⟩ :=
    loopOn_pairs mt conv n argv.tail 1 Args.init hlen hrec
  rw [argLoop_main]
  refine ⟨a, hexit, ?_, h1, h2, h3, h4, ?_⟩
  · exact readsBelow_mono hreads (by omega)
  · rw [h5]
    simp [Args.init, valuesOf]

/-! ## Reading the segments of a trace -/

theorem filterMap_readsBelow {β : Type} {b : Nat} {t : List Action} (f : Action → Option β)
    (h : readsBelow b t) (hf : ∀ j, f (Action.readArgv j) = none) : t.filterMap f = [] := by
  rw [List.filterMap_eq_nil_iff]
  intro x hx
  obtain ⟨j, hj, _⟩ := h x hx
  rw [hj]
  exact hf j

theorem filter_readsBelow {b : Nat} {t : List Action} (p : Action → Bool)
    (h : readsBelow b t) (hp : ∀ j, p (Action.readArgv j) = false) : t.filter p = [] := by
  rw [List.filter_eq_nil_iff]
  intro x hx
  obtain ⟨j, hj, _⟩ := h x hx
  rw [hj, hp j]
  simp

/-- With at most 11 arguments and a loop that ran to its end, `main` goes on
to the bootstrap and the tuning block. -/
theorem main_of_done (mt : Bool) (ver : Nat) (conv : String → Int) (isGUI : Bool)
    (argv : List String) (a : Args) (h11 : argv.length ≤ 11)
    (hexit : (argLoop mt conv argv 1 Args.init).exit = LoopExit.done a) :
    main mt ver conv isGUI argv =
      if (ftfTuning ver a).2 = true then
        { trace := (argLoop mt conv argv 1 Args.init).trace ++ bootstrap mt argv a ++
            (ftfTuning ver a).1,
          exit := Exit.returned 1 }
      else
        { trace := (argLoop mt conv argv 1 Args.init).trace ++ bootstrap mt argv a ++
            (ftfTuning ver a).1 ++ actionAndVis ++ dispatch isGUI a ++ termination,
          exit := Exit.returned 0 } := by
  unfold main
  rw [if_neg (by omega)]
  simp only [hexit]

theorem string_length_eq_zero (s : String) : s.length = 0 ↔ s = "" := by
  constructor
  · intro h
    have hd : s.data = [] := List.eq_nil_of_length_eq_zero h
    exact String.ext hd
  · intro h
    subst h
    rfl

/-! ## Unrecognised flags -/

/-- On any tokens with an unrecognised token at an even offset, the loop ends
in the usage error, after reads of these tokens only. -/
theorem loopOn_unrecognised (mt : Bool) (conv : String → Int) :
    ∀ (n : Nat) (l : List String) (i : Nat) (a : Args), l.length ≤ n →
      (∃ k flag, k % 2 = 0 ∧ l.get? k = some flag ∧ ¬ recognised mt flag) →
      (loopOn mt conv i l a).exit = LoopExit.usage ∧
        ∃ reads, (loopOn mt conv i l a).trace = reads ++ UsageError ∧
          readsBelow (i + l.length) reads := by
  intro n
  induction n with
  | zero =>
      intro l i a hlen hk
      have hl : l = [] := List.eq_nil_of_length_eq_zero (by omega)
      subst hl
      obtain ⟨k, flag, _, hget, _⟩ := hk
      simp at hget
  | succ n ih =>
      intro l i a hlen hk
      obtain ⟨k, flag, hk2, hget, hbad⟩ := hk
      match l, hlen, hget with
      | [], _, hget => simp at hget
      | [f], _, hget =>
          have hk0 : k = 0 := by
            rcases k with _ | k
            · rfl
            · simp at hget
          subst hk0
          simp at hget
          subst hget
          have hnone := (applyFlag_eq_none_iff mt conv f a).mpr hbad
          refine ⟨by simp [loopOn, hnone], [Action.readArgv i], by simp [loopOn, hnone], ?_⟩
          intro x hx
          exact ⟨i, by simpa using hx, by simp⟩
      | f :: v :: rest, hlen, hget =>
          by_cases hf : recognised mt f
          · obtain ⟨assign, hassign, _⟩ := applyFlag_some mt conv f a hf
            have hk' : ∃ k' flag', k' % 2 = 0 ∧ rest.get? k' = some flag' ∧
                ¬ recognised mt flag' := by
              rcases k with _ | _ | k
              · simp at hget
                subst hget
                exact absurd hf hbad
              · omega
              · exact ⟨k, flag, by omega, by simpa using hget, hbad⟩
            obtain ⟨hexit, reads, htrace, hreads⟩ :=
              ih rest (i + 2) (assign v) (by simp at hlen; omega) hk'
            have hloop : loopOn mt conv i (f :: v :: rest) a =
                LoopRun.after [Action.readArgv i, Action.readArgv (i + 1)]
                  (loopOn mt conv (i + 2) rest (assign v)) := by
              simp only [loopOn, hassign]
            rw [hloop]
            refine ⟨hexit, Action.readArgv i :: Action.readArgv (i + 1) :: reads, ?_, ?_⟩
            · simp [LoopRun.after, htrace]
            · intro x hx
              simp only [List.mem_cons] at hx
              rcases hx with hx | hx | hx
              · exact ⟨i, hx, by simp⟩
              · exact ⟨i + 1, hx, by simp⟩
              · obtain ⟨j, hj, hlt⟩ := hreads x hx
                exact ⟨j, hj, by simp at hlt ⊢; omega⟩
          · have hnone := (applyFlag_eq_none_iff mt conv f a).mpr hf
            refine ⟨by simp [loopOn, hnone], [Action.readArgv i], by simp [loopOn, hnone], ?_⟩
            intro x hx
            exact ⟨i, by simpa using hx, by simp⟩

/-! ## Claims about the command line -/

/-- C1: with more than 11 arguments `main` prints the usage message on the
error stream, that is the line `->ATLHECTB usage: ` and the line that lists
the five options, and returns 1, and that is all it does: no argument is
read, no object is allocated and no UI command is issued. -/
theorem main_too_many_arguments (mt : Bool) (ver : Nat) (conv : String → Int) (isGUI : Bool)
    (argv : List String) (h : argv.length > 11) :
    main mt ver conv isGUI argv =
        { trace :=
            [ Action.cerr "->ATLHECTB usage: ",
              Action.cerr
                "ATLHECTB [-m macro] [-u UIsession] [-t nThreads] [-pl PhysicsList] [-tune FTFTuneName (optional)]" ],
          exit := Exit.returned 1 } ∧
      cerrLines (main mt ver conv isGUI argv).trace =
        [ "->ATLHECTB usage: ",
          "ATLHECTB [-m macro] [-u UIsession] [-t nThreads] [-pl PhysicsList] [-tune FTFTuneName (optional)]" ] ∧
      argvReads (main mt ver conv isGUI argv).trace = [] ∧
      (main mt ver conv isGUI argv).trace.filter Action.isAllocation = [] ∧
      uiCommands (main mt ver conv isGUI argv).trace = [] := by
  have hmain : main mt ver conv isGUI argv = { trace := UsageError, exit := Exit.returned 1 } := by
    unfold main
    rw [if_pos h]
  rw [hmain]
  exact ⟨rfl, rfl, rfl, rfl, rfl⟩

theorem main_too_many_arguments_witness :
    main false 1110 (fun _ => 0) false
        ["ATLHECTB", "-m", "a", "-u", "b", "-pl", "c", "-tune", "d", "-m", "e", "-u"] =
        { trace :=
            [ Action.cerr "->ATLHECTB usage: ",
              Action.cerr
                "ATLHECTB [-m macro] [-u UIsession] [-t nThreads] [-pl PhysicsList] [-tune FTFTuneName (optional)]" ],
          exit := Exit.returned 1 } ∧
      cerrLines (main false 1110 (fun _ => 0) false
        ["ATLHECTB", "-m", "a", "-u", "b", "-pl", "c", "-tune", "d", "-m", "e", "-u"]).trace =
        [ "->ATLHECTB usage: ",
          "ATLHECTB [-m macro] [-u UIsession] [-t nThreads] [-pl PhysicsList] [-tune FTFTuneName (optional)]" ] ∧
      argvReads (main false 1110 (fun _ => 0) false
        ["ATLHECTB", "-m", "a", "-u", "b", "-pl", "c", "-tune", "d", "-m", "e", "-u"]).trace = [] ∧
      (main false 1110 (fun _ => 0) false
        ["ATLHECTB", "-m", "a", "-u", "b", "-pl", "c", "-tune", "d", "-m", "e", "-u"]).trace.filter
          Action.isAllocation = [] ∧
      uiCommands (main false 1110 (fun _ => 0) false
        ["ATLHECTB", "-m", "a", "-u", "b", "-pl", "c", "-tune", "d", "-m", "e", "-u"]).trace = [] :=
  main_too_many_arguments false 1110 (fun _ => 0) false
    ["ATLHECTB", "-m", "a", "-u", "b", "-pl", "c", "-tune", "d", "-m", "e", "-u"] (by decide)

/-- C2: with at most 11 arguments, if some token at a flag position (an odd
index) is not a recognised flag (`-t` is recognised in a multithreaded build
only), `main` returns 1 after printing the usage message, that is the line
`->ATLHECTB usage: ` and the line that lists the five options, on the error
stream; before the message it has only read arguments. -/
theorem main_unrecognised_flag (mt : Bool) (ver : Nat) (conv : String → Int) (isGUI : Bool)
    (argv : List String) (h11 : argv.length ≤ 11)
    (hflag : ∃ i flag, i % 2 = 1 ∧ argv.get? i = some flag ∧ ¬ recognised mt flag) :
    (main mt ver conv isGUI argv).exit = Exit.returned 1 ∧
      cerrLines (main mt ver conv isGUI argv).trace =
        [ "->ATLHECTB usage: ",
          "ATLHECTB [-m macro] [-u UIsession] [-t nThreads] [-pl PhysicsList] [-tune FTFTuneName (optional)]" ] ∧
      ∃ reads, (main mt ver conv isGUI argv).trace =
          reads ++
            [ Action.cerr "->ATLHECTB usage: ",
              Action.cerr
                "ATLHECTB [-m macro] [-u UIsession] [-t nThreads] [-pl PhysicsList] [-tune FTFTuneName (optional)]" ] ∧
        readsBelow argv.length reads := by
  obtain ⟨i, flag, hodd, hget, hbad⟩ := hflag
  have htail : ∃ k flag', k % 2 = 0 ∧ argv.tail.get? k = some flag' ∧ ¬ recognised mt flag' := by
    rcases i with _ | k
    · omega
    · refine ⟨k, flag, by omega, ?_, hbad⟩
      cases argv with
      | nil => simp at hget
      | cons x t => simpa using hget
  have hpos : 0 < argv.length := by
    cases argv with
    | nil => simp at hget
    | cons x t => simp
  obtain ⟨hexit, reads, htrace, hreads⟩ :=
    loopOn_unrecognised mt conv argv.tail.length argv.tail 1 Args.init (le_refl _) htail
  rw [← argLoop_main] at hexit htrace
  have hmain : main mt ver conv isGUI argv =
      { trace := (argLoop mt conv argv 1 Args.init).trace, exit := Exit.returned 1 } := by
    unfold main
    rw [if_neg (by omega)]
    simp only [hexit]
  have hreads2 : readsBelow argv.length reads :=
    readsBelow_mono hreads (by rw [List.length_tail]; omega)
  rw [hmain]
  refine ⟨rfl, ?_, reads, htrace, hreads2⟩
  simp only [htrace, cerrLines, List.filterMap_append]
  rw [filterMap_readsBelow _ hreads2 (fun j => rfl)]
  rfl

theorem main_unrecognised_flag_witness :
    (main false 1110 (fun _ => 0) false ["ATLHECTB", "-pl", "QGSP_BERT", "-t", "4"]).exit =
        Exit.returned 1 ∧
      cerrLines (main false 1110 (fun _ => 0) false
        ["ATLHECTB", "-pl", "QGSP_BERT", "-t", "4"]).trace =
        [ "->ATLHECTB usage: ",
          "ATLHECTB [-m macro] [-u UIsession] [-t nThreads] [-pl PhysicsList] [-tune FTFTuneName (optional)]" ] ∧
      ∃ reads, (main false 1110 (fun _ => 0) false
          ["ATLHECTB", "-pl", "QGSP_BERT", "-t", "4"]).trace =
          reads ++
            [ Action.cerr "->ATLHECTB usage: ",
              Action.cerr
                "ATLHECTB [-m macro] [-u UIsession] [-t nThreads] [-pl PhysicsList] [-tune FTFTuneName (optional)]" ] ∧
        readsBelow ["ATLHECTB", "-pl", "QGSP_BERT", "-t", "4"].length reads :=
  main_unrecognised_flag false 1110 (fun _ => 0) false
    ["ATLHECTB", "-pl", "QGSP_BERT", "-t", "4"] (by decide)
    ⟨3, "-t", by decide, by decide, by decide⟩

/-! ## The tuning block and the whole of `main` on a well-formed vector -/

theorem ftfTuning_old (ver : Nat) (a : Args) (h : ver < 1110) : ftfTuning ver a = ([], false) := by
  unfold ftfTuning
  rw [if_neg (by omega)]

theorem ftfTuning_off (ver : Nat) (a : Args) (h : ver ≥ 1110) (hu : ¬ a.UseFTFTune = true) :
    ftfTuning ver a = ([Action.FTFTuningsInstance], false) := by
  unfold ftfTuning
  rw [if_pos h, if_neg hu]

theorem ftfTuning_valid (ver : Nat) (a : Args) (h : ver ≥ 1110) (hu : a.UseFTFTune = true)
    (hv : a.FTFTuneName ∈ validTunes) :
    ftfTuning ver a =
      ([Action.FTFTuningsInstance, progressLine a.FTFTuneName,
        Action.SetTuneApplicabilityState (tuneNumber a.FTFTuneName) 1], false) := by
  unfold ftfTuning
  rw [if_pos h, if_pos hu]
  simp only [validTunes, List.mem_cons, List.mem_singleton, List.not_mem_nil, or_false] at hv
  rcases hv with hv | hv | hv | hv <;> rw [hv] <;> rfl

theorem ftfTuning_invalid (ver : Nat) (a : Args) (h : ver ≥ 1110) (hu : a.UseFTFTune = true)
    (hv : a.FTFTuneName ∉ validTunes) :
    ftfTuning ver a =
      (Action.FTFTuningsInstance :: progressLine a.FTFTuneName :: FTFTuneUsageError, true) := by
  unfold ftfTuning
  simp only [validTunes, List.mem_cons, List.mem_singleton, List.not_mem_nil, or_false,
    not_or] at hv
  obtain ⟨h0, h1, h2, h3⟩ := hv
  rw [if_pos h, if_pos hu]
  simp only [h0, h1, h2, h3, if_false]
  rfl

/-- On a well-formed vector `main` reads the arguments, then runs the
bootstrap and the tuning block with the variables set from the last pair of
each flag, and goes on unless the tuning block returned. -/
theorem main_wellFormed (mt : Bool) (ver : Nat) (conv : String → Int) (isGUI : Bool)
    (argv : List String) (h : wellFormed mt argv) :
    ∃ a reads, readsBelow argv.length reads ∧
      a.macroName = (lastValue "-m" argv).getD "" ∧
      a.session = (lastValue "-u" argv).getD "" ∧
      a.custom_pl = (lastValue "-pl" argv).getD "FTFP_BERT" ∧
      a.FTFTuneName = (lastValue "-tune" argv).getD "" ∧
      (a.UseFTFTune = true ↔ valuesOf "-tune" argv ≠ []) ∧
      main mt ver conv isGUI argv =
        if (ftfTuning ver a).2 = true then
          { trace := reads ++ bootstrap mt argv a ++ (ftfTuning ver a).1,
            exit := Exit.returned 1 }
        else
          { trace := reads ++ bootstrap mt argv a ++ (ftfTuning ver a).1 ++ actionAndVis ++
              dispatch isGUI a ++ termination,
            exit := Exit.returned 0 } := by
  obtain ⟨a, hexit, hreads, h1, h2, h3, h4, h5⟩ := argLoop_wellFormed mt conv argv h
  exact ⟨a, _, hreads, h1, h2, h3, h4, h5, main_of_done mt ver conv isGUI argv a h.1 hexit⟩

theorem lastValue_some_ne_nil {flag v : String} {argv : List String}
    (h : lastValue flag argv = some v) : valuesOf flag argv ≠ [] := by
  intro hnil
  simp [lastValue, hnil] at h

theorem lastValue_of_nil {flag : String} {argv : List String}
    (h : valuesOf flag argv = []) : lastValue flag argv = none := by
  simp [lastValue, h]

theorem lastValue_of_singleton {flag v : String} {argv : List String}
    (h : valuesOf flag argv = [v]) : lastValue flag argv = some v := by
  simp [lastValue, h]

theorem cerrLines_bootstrap (mt : Bool) (argv : List String) (a : Args) :
    cerrLines (bootstrap mt argv a) = [] := by
  unfold bootstrap cerrLines
  split_ifs <;> rfl

theorem coutLines_bootstrap (mt : Bool) (argv : List String) (a : Args) :
    coutLines (bootstrap mt argv a) = [] := by
  unfold bootstrap coutLines
  split_ifs <;> rfl

theorem tuneCalls_bootstrap (mt : Bool) (argv : List String) (a : Args) :
    tuneCalls (bootstrap mt argv a) = [] := by
  unfold bootstrap tuneCalls
  split_ifs <;> rfl

theorem uiCommands_bootstrap (mt : Bool) (argv : List String) (a : Args) :
    uiCommands (bootstrap mt argv a) = [] := by
  unfold bootstrap uiCommands
  split_ifs <;> rfl

theorem physListNames_bootstrap (mt : Bool) (argv : List String) (a : Args) :
    physListNames (bootstrap mt argv a) = [a.custom_pl] := by
  unfold bootstrap physListNames
  split_ifs <;> rfl

theorem physListNames_ftfTuning (ver : Nat) (a : Args) :
    physListNames (ftfTuning ver a).1 = [] := by
  unfold ftfTuning physListNames
  split_ifs <;> rfl

theorem cerrLines_dispatch (isGUI : Bool) (a : Args) : cerrLines (dispatch isGUI a) = [] := by
  unfold dispatch cerrLines
  split_ifs <;> rfl

theorem coutLines_dispatch (isGUI : Bool) (a : Args) : coutLines (dispatch isGUI a) = [] := by
  unfold dispatch coutLines
  split_ifs <;> rfl

theorem tuneCalls_dispatch (isGUI : Bool) (a : Args) : tuneCalls (dispatch isGUI a) = [] := by
  unfold dispatch tuneCalls
  split_ifs <;> rfl

theorem physListNames_dispatch (isGUI : Bool) (a : Args) :
    physListNames (dispatch isGUI a) = [] := by
  unfold dispatch physListNames
  split_ifs <;> rfl

/-- C3: on a well-formed vector whose `-tune` value (that of the last `-tune`
pair) is not one of the four valid names: with toolkit version at least
11.1.0 `main` returns 1 and the error stream holds exactly the tune usage
message, printed last: the line `Wrong FTF Alternative Tune Name selected. `,
the line `Geant4-11.1.0 valid names are: ` and the four valid names, one per
line, in the order of `validTunes`; no tune is activated.  Below that version
the tune is ignored: nothing is printed, no tune is activated and `main`
returns 0. -/
theorem main_tune_invalid (mt : Bool) (ver : Nat) (conv : String → Int) (isGUI : Bool)
    (argv : List String) (v : String) (hwf : wellFormed mt argv)
    (hlast : lastValue "-tune" argv = some v) (hbad : v ∉ validTunes) :
    (ver ≥ 1110 →
      (main mt ver conv isGUI argv).exit = Exit.returned 1 ∧
      cerrLines (main mt ver conv isGUI argv).trace =
        [ "Wrong FTF Alternative Tune Name selected. ",
          "Geant4-11.1.0 valid names are: ",
          "default\nbaryon-tune2022-v0\npion-tune2022-v0\ncombined-tune2022-v0" ] ∧
      cerrLines (main mt ver conv isGUI argv).trace =
        [ "Wrong FTF Alternative Tune Name selected. ",
          "Geant4-11.1.0 valid names are: ",
          String.intercalate "\n" validTunes ] ∧
      (∃ before, (main mt ver conv isGUI argv).trace =
        before ++
          [ Action.cerr "Wrong FTF Alternative Tune Name selected. ",
            Action.cerr "Geant4-11.1.0 valid names are: ",
            Action.cerr "default\nbaryon-tune2022-v0\npion-tune2022-v0\ncombined-tune2022-v0" ]) ∧
      tuneCalls (main mt ver conv isGUI argv).trace = []) ∧
    (ver < 1110 →
      (main mt ver conv isGUI argv).exit = Exit.returned 0 ∧
      cerrLines (main mt ver conv isGUI argv).trace = [] ∧
      coutLines (main mt ver conv isGUI argv).trace = [] ∧
      tuneCalls (main mt ver conv isGUI argv).trace = []) := by
  obtain ⟨a, reads, hreads, _, _, _, hname, huse, hmain⟩ :=
    main_wellFormed mt ver conv isGUI argv hwf
  have hu : a.UseFTFTune = true := huse.mpr (lastValue_some_ne_nil hlast)
  have hn : a.FTFTuneName = v := by rw [hname, hlast]; rfl
  constructor
  · intro hver
    have ht := ftfTuning_invalid ver a hver hu (by rw [hn]; exact hbad)
    have hm : main mt ver conv isGUI argv =
        { trace := reads ++ bootstrap mt argv a ++
            (Action.FTFTuningsInstance :: progressLine a.FTFTuneName :: FTFTuneUsageError),
          exit := Exit.returned 1 } := by
      rw [hmain, ht]
      rfl
    rw [hm]
    have hlines : cerrLines (reads ++ bootstrap mt argv a ++
        (Action.FTFTuningsInstance :: progressLine a.FTFTuneName :: FTFTuneUsageError)) =
        [ "Wrong FTF Alternative Tune Name selected. ",
          "Geant4-11.1.0 valid names are: ",
          "default\nbaryon-tune2022-v0\npion-tune2022-v0\ncombined-tune2022-v0" ] := by
      simp only [cerrLines, List.filterMap_append]
      rw [filterMap_readsBelow _ hreads (fun j => rfl)]
      have := cerrLines_bootstrap mt argv a
      simp only [cerrLines] at this
      rw [this]
      rfl
    have hnames : String.intercalate "\n" validTunes =
        "default\nbaryon-tune2022-v0\npion-tune2022-v0\ncombined-tune2022-v0" := by
      decide
    refine ⟨rfl, hlines, ?_,
      ⟨reads ++ bootstrap mt argv a ++ [Action.FTFTuningsInstance, progressLine a.FTFTuneName],
        by simp [FTFTuneUsageError]⟩, ?_⟩
    · rw [hnames]
      exact hlines
    · simp only [tuneCalls, List.filterMap_append]
      rw [filterMap_readsBelow _ hreads (fun j => rfl)]
      have := tuneCalls_bootstrap mt argv a
      simp only [tuneCalls] at this
      rw [this]
      rfl
  · intro hver
    have ht := ftfTuning_old ver a hver
    have hm : main mt ver conv isGUI argv =
        { trace := reads ++ bootstrap mt argv a ++ [] ++ actionAndVis ++ dispatch isGUI a ++
            termination,
          exit := Exit.returned 0 } := by
      rw [hmain, ht]
      rfl
    rw [hm]
    refine ⟨rfl, ?_, ?_, ?_⟩
    · have h1 := cerrLines_bootstrap mt argv a
      have h2 := cerrLines_dispatch isGUI a
      simp only [cerrLines] at h1 h2
      simp only [cerrLines, List.filterMap_append]
      rw [filterMap_readsBelow _ hreads (fun j => rfl), h1, h2]
      rfl
    · have h1 := coutLines_bootstrap mt argv a
      have h2 := coutLines_dispatch isGUI a
      simp only [coutLines] at h1 h2
      simp only [coutLines, List.filterMap_append]
      rw [filterMap_readsBelow _ hreads (fun j => rfl), h1, h2]
      rfl
    · have h1 := tuneCalls_bootstrap mt argv a
      have h2 := tuneCalls_dispatch isGUI a
      simp only [tuneCalls] at h1 h2
      simp only [tuneCalls, List.filterMap_append]
      rw [filterMap_readsBelow _ hreads (fun j => rfl), h1, h2]
      rfl

theorem main_tune_invalid_witness :
    ((main false 1110 (fun _ => 0) false ["ATLHECTB", "-tune", "foo"]).exit = Exit.returned 1 ∧
      cerrLines (main false 1110 (fun _ => 0) false ["ATLHECTB", "-tune", "foo"]).trace =
        [ "Wrong FTF Alternative Tune Name selected. ",
          "Geant4-11.1.0 valid names are: ",
          "default\nbaryon-tune2022-v0\npion-tune2022-v0\ncombined-tune2022-v0" ] ∧
      cerrLines (main false 1110 (fun _ => 0) false ["ATLHECTB", "-tune", "foo"]).trace =
        [ "Wrong FTF Alternative Tune Name selected. ",
          "Geant4-11.1.0 valid names are: ",
          String.intercalate "\n" validTunes ] ∧
      (∃ before, (main false 1110 (fun _ => 0) false ["ATLHECTB", "-tune", "foo"]).trace =
        before ++
          [ Action.cerr "Wrong FTF Alternative Tune Name selected. ",
            Action.cerr "Geant4-11.1.0 valid names are: ",
            Action.cerr "default\nbaryon-tune2022-v0\npion-tune2022-v0\ncombined-tune2022-v0" ]) ∧
      tuneCalls (main false 1110 (fun _ => 0) false ["ATLHECTB", "-tune", "foo"]).trace = []) ∧
    ((main false 1100 (fun _ => 0) false ["ATLHECTB", "-tune", "foo"]).exit = Exit.returned 0 ∧
      cerrLines (main false 1100 (fun _ => 0) false ["ATLHECTB", "-tune", "foo"]).trace = [] ∧
      coutLines (main false 1100 (fun _ => 0) false ["ATLHECTB", "-tune", "foo"]).trace = [] ∧
      tuneCalls (main false 1100 (fun _ => 0) false ["ATLHECTB", "-tune", "foo"]).trace = []) :=
  ⟨(main_tune_invalid false 1110 (fun _ => 0) false ["ATLHECTB", "-tune", "foo"] "foo"
      (by decide) (by decide) (by decide)).1 (by decide),
   (main_tune_invalid false 1100 (fun _ => 0) false ["ATLHECTB", "-tune", "foo"] "foo"
      (by decide) (by decide) (by decide)).2 (by decide)⟩

/-- Without a tune error the tuning block does not return. -/
theorem ftfTuning_no_error (ver : Nat) (argv : List String) (a : Args)
    (hname : a.FTFTuneName = (lastValue "-tune" argv).getD "")
    (huse : a.UseFTFTune = true ↔ valuesOf "-tune" argv ≠ [])
    (htune : ¬ tuneError ver argv) : (ftfTuning ver a).2 = false := by
  by_cases hver : ver ≥ 1110
  · by_cases hu : a.UseFTFTune = true
    · have hne := huse.mp hu
      cases hl : lastValue "-tune" argv with
      | none =>
          simp only [lastValue, List.getLast?_eq_none_iff] at hl
          exact absurd hl hne
      | some v =>
          have hv : v ∈ validTunes := by
            by_contra hbad
            exact htune ⟨hver, v, hl, hbad⟩
          rw [ftfTuning_valid ver a hver hu (by rw [hname, hl]; exact hv)]
    · rw [ftfTuning_off ver a hver hu]
  · rw [ftfTuning_old ver a (by omega)]

/-- On a well-formed vector without tune error `main` runs to its end. -/
theorem main_normal (mt : Bool) (ver : Nat) (conv : String → Int) (isGUI : Bool)
    (argv : List String) (hwf : wellFormed mt argv) (htune : ¬ tuneError ver argv) :
    ∃ a reads, readsBelow argv.length reads ∧
      a.macroName = (lastValue "-m" argv).getD "" ∧
      a.session = (lastValue "-u" argv).getD "" ∧
      a.FTFTuneName = (lastValue "-tune" argv).getD "" ∧
      (a.UseFTFTune = true ↔ valuesOf "-tune" argv ≠ []) ∧
      main mt ver conv isGUI argv =
        { trace := reads ++ bootstrap mt argv a ++ (ftfTuning ver a).1 ++ actionAndVis ++
            dispatch isGUI a ++ termination,
          exit := Exit.returned 0 } := by
  obtain ⟨a, reads, hreads, hm, hs, _, hname, huse, hmain⟩ :=
    main_wellFormed mt ver conv isGUI argv hwf
  refine ⟨a, reads, hreads, hm, hs, hname, huse, ?_⟩
  rw [hmain, ftfTuning_no_error ver argv a hname huse htune]
  rfl

/-- The name handed to the factory is what `custom_pl` holds after the loop. -/
theorem physListNames_main (mt : Bool) (ver : Nat) (conv : String → Int) (isGUI : Bool)
    (argv : List String) (hwf : wellFormed mt argv) :
    physListNames (main mt ver conv isGUI argv).trace =
      [(lastValue "-pl" argv).getD "FTFP_BERT"] := by
  obtain ⟨a, reads, hreads, _, _, hpl, _, _, hmain⟩ :=
    main_wellFormed mt ver conv isGUI argv hwf
  have h0 : physListNames reads = [] := filterMap_readsBelow _ hreads (fun j => rfl)
  have h1 := physListNames_bootstrap mt argv a
  have h2 := physListNames_ftfTuning ver a
  have h3 := physListNames_dispatch isGUI a
  have happ : ∀ s t : List Action, physListNames (s ++ t) = physListNames s ++ physListNames t :=
    fun s t => List.filterMap_append _ _ _
  rw [hmain]
  split_ifs
  · simp only [happ, h0, h1, h2, hpl]
    rfl
  · simp only [happ, h0, h1, h2, h3, hpl]
    rfl

/-- C6: on a well-formed vector that contains the pair `(-pl, n)` exactly
once, the one name handed to the physics-list factory is `n`; on a well-formed
vector without `-pl` pair it is `FTFP_BERT`. -/
theorem main_physics_list (mt : Bool) (ver : Nat) (conv : String → Int) (isGUI : Bool)
    (argv : List String) (hwf : wellFormed mt argv) :
    (∀ n, valuesOf "-pl" argv = [n] →
      physListNames (main mt ver conv isGUI argv).trace = [n]) ∧
    (valuesOf "-pl" argv = [] →
      physListNames (main mt ver conv isGUI argv).trace = ["FTFP_BERT"]) := by
  rw [physListNames_main mt ver conv isGUI argv hwf]
  constructor
  · intro n hn
    rw [lastValue_of_singleton hn]
    rfl
  · intro hn
    rw [lastValue_of_nil hn]
    rfl

theorem main_physics_list_witness :
    physListNames (main true 1110 (fun _ => 4) false
        ["ATLHECTB", "-pl", "QGSP_BERT", "-t", "4"]).trace = ["QGSP_BERT"] ∧
      physListNames (main true 1110 (fun _ => 4) false
        ["ATLHECTB", "-m", "run.mac"]).trace = ["FTFP_BERT"] :=
  ⟨(main_physics_list true 1110 (fun _ => 4) false ["ATLHECTB", "-pl", "QGSP_BERT", "-t", "4"]
      (by decide)).1 "QGSP_BERT" (by decide),
   (main_physics_list true 1110 (fun _ => 4) false ["ATLHECTB", "-m", "run.mac"]
      (by decide)).2 (by decide)⟩

theorem tuneCalls_append (s t : List Action) : tuneCalls (s ++ t) = tuneCalls s ++ tuneCalls t :=
  List.filterMap_append _ _ _

theorem uiCommands_append (s t : List Action) :
    uiCommands (s ++ t) = uiCommands s ++ uiCommands t :=
  List.filterMap_append _ _ _

theorem uiCommands_ftfTuning (ver : Nat) (a : Args) : uiCommands (ftfTuning ver a).1 = [] := by
  unfold ftfTuning uiCommands
  split_ifs <;> rfl

theorem filter_isSession_ftfTuning (ver : Nat) (a : Args) :
    (ftfTuning ver a).1.filter Action.isSession = [] := by
  unfold ftfTuning
  split_ifs <;> rfl

theorem filter_isSessionOrCommand_ftfTuning (ver : Nat) (a : Args) :
    (ftfTuning ver a).1.filter Action.isSessionOrCommand = [] := by
  unfold ftfTuning
  split_ifs <;> rfl

theorem tuneNumber_table :
    tuneNumber "default" = 0 ∧ tuneNumber "baryon-tune2022-v0" = 1 ∧
      tuneNumber "pion-tune2022-v0" = 2 ∧ tuneNumber "combined-tune2022-v0" = 3 := by
  decide

/-- C8: with toolkit version at least 11.1.0, on a well-formed vector whose
`-tune` value (that of the last `-tune` pair) is a valid name, `main` makes
exactly one call `SetTuneApplicabilityState(k, 1)`, where `k` is the number of
the name (0 for default, 1 for baryon-tune2022-v0, 2 for pion-tune2022-v0, 3
for combined-tune2022-v0), right after the progress line that names the tune;
on a well-formed vector without `-tune` pair it makes no such call. -/
theorem main_tune_valid (mt : Bool) (ver : Nat) (conv : String → Int) (isGUI : Bool)
    (argv : List String) (hver : ver ≥ 1110) (hwf : wellFormed mt argv) :
    (∀ name, lastValue "-tune" argv = some name → name ∈ validTunes →
      tuneCalls (main mt ver conv isGUI argv).trace = [(tuneNumber name, 1)] ∧
      ∃ before after, (main mt ver conv isGUI argv).trace =
          before ++ [progressLine name, Action.SetTuneApplicabilityState (tuneNumber name) 1] ++
            after ∧
        tuneCalls before = [] ∧ tuneCalls after = []) ∧
    (valuesOf "-tune" argv = [] → tuneCalls (main mt ver conv isGUI argv).trace = []) ∧
    (tuneNumber "default" = 0 ∧ tuneNumber "baryon-tune2022-v0" = 1 ∧
      tuneNumber "pion-tune2022-v0" = 2 ∧ tuneNumber "combined-tune2022-v0" = 3) := by
  refine ⟨?_, ?_, tuneNumber_table⟩
  · intro name hlast hvalid
    have htune : ¬ tuneError ver argv := by
      rintro ⟨_, v, hv, hbad⟩
      rw [hlast] at hv
      cases hv
      exact hbad hvalid
    obtain ⟨a, reads, hreads, _, _, hname, huse, hmain⟩ :=
      main_normal mt ver conv isGUI argv hwf htune
    have hu : a.UseFTFTune = true := huse.mpr (lastValue_some_ne_nil hlast)
    have hn : a.FTFTuneName = name := by rw [hname, hlast]; rfl
    have ht := ftfTuning_valid ver a hver hu (by rw [hn]; exact hvalid)
    rw [hn] at ht
    have h0 : tuneCalls reads = [] := filterMap_readsBelow _ hreads (fun j => rfl)
    have h1 := tuneCalls_bootstrap mt argv a
    have h2 := tuneCalls_dispatch isGUI a
    have hbefore : tuneCalls (reads ++ bootstrap mt argv a ++ [Action.FTFTuningsInstance]) = [] := by
      simp only [tuneCalls_append, h0, h1]
      rfl
    have hafter : tuneCalls (actionAndVis ++ dispatch isGUI a ++ termination) = [] := by
      simp only [tuneCalls_append, h2]
      rfl
    have htrace : (main mt ver conv isGUI argv).trace =
        (reads ++ bootstrap mt argv a ++ [Action.FTFTuningsInstance]) ++
          [progressLine name, Action.SetTuneApplicabilityState (tuneNumber name) 1] ++
          (actionAndVis ++ dispatch isGUI a ++ termination) := by
      rw [hmain, ht]
      simp only [List.append_assoc, List.cons_append, List.nil_append]
    refine ⟨?_, _, _, htrace, hbefore, hafter⟩
    rw [htrace]
    simp only [tuneCalls_append, hbefore, hafter]
    rfl
  · intro hnone
    have htune : ¬ tuneError ver argv := by
      rintro ⟨_, v, hv, _⟩
      rw [lastValue_of_nil hnone] at hv
      cases hv
    obtain ⟨a, reads, hreads, _, _, _, huse, hmain⟩ :=
      main_normal mt ver conv isGUI argv hwf htune
    have hu : ¬ a.UseFTFTune = true := fun h => huse.mp h hnone
    have h0 : tuneCalls reads = [] := filterMap_readsBelow _ hreads (fun j => rfl)
    have h1 := tuneCalls_bootstrap mt argv a
    have h2 := tuneCalls_dispatch isGUI a
    rw [hmain, ftfTuning_off ver a hver hu]
    simp only [tuneCalls_append, h0, h1, h2]
    rfl

theorem main_tune_valid_witness :
    (tuneCalls (main false 1110 (fun _ => 0) true
        ["ATLHECTB", "-tune", "pion-tune2022-v0", "-m", "run.mac"]).trace =
        [(tuneNumber "pion-tune2022-v0", 1)] ∧
      ∃ before after, (main false 1110 (fun _ => 0) true
          ["ATLHECTB", "-tune", "pion-tune2022-v0", "-m", "run.mac"]).trace =
          before ++ [progressLine "pion-tune2022-v0",
            Action.SetTuneApplicabilityState (tuneNumber "pion-tune2022-v0") 1] ++ after ∧
        tuneCalls before = [] ∧ tuneCalls after = []) ∧
    tuneCalls (main false 1110 (fun _ => 0) true ["ATLHECTB", "-m", "run.mac"]).trace = [] :=
  ⟨(main_tune_valid false 1110 (fun _ => 0) true
      ["ATLHECTB", "-tune", "pion-tune2022-v0", "-m", "run.mac"] (by decide) (by decide)).1
      "pion-tune2022-v0" (by decide) (by decide),
   (main_tune_valid false 1110 (fun _ => 0) true ["ATLHECTB", "-m", "run.mac"]
      (by decide) (by decide)).2.1 (by decide)⟩

/-! ## Macro mode and interactive mode -/

theorem filter_isSession_bootstrap_macro (mt : Bool) (argv : List String) (a : Args)
    (h : a.macroName ≠ "") : (bootstrap mt argv a).filter Action.isSession = [] := by
  have hlen : ¬ a.macroName.length = 0 := fun h0 => h ((string_length_eq_zero _).mp h0)
  unfold bootstrap
  rw [if_neg hlen]
  split_ifs <;> rfl

theorem filter_isSessionOrCommand_bootstrap (mt : Bool) (argv : List String) (a : Args)
    (h : a.macroName = "") :
    (bootstrap mt argv a).filter Action.isSessionOrCommand =
      [Action.newUIExecutive argv.length argv a.session] := by
  have hlen : a.macroName.length = 0 := (string_length_eq_zero _).mpr h
  unfold bootstrap
  rw [if_pos hlen]
  split_ifs <;> rfl

theorem dispatch_macro (isGUI : Bool) (a : Args) (h : a.macroName ≠ "") :
    dispatch isGUI a =
      [ Action.ApplyCommand "/process/em/verbose 0",
        Action.ApplyCommand "/process/had/verbose 0",
        Action.ApplyCommand ("/control/execute " ++ a.macroName) ] := by
  have hlen : a.macroName.length ≠ 0 := fun h0 => h ((string_length_eq_zero _).mp h0)
  unfold dispatch
  rw [if_pos hlen]

theorem dispatch_session (isGUI : Bool) (a : Args) (h : a.macroName = "") :
    dispatch isGUI a =
      [Action.ApplyCommand "/control/execute ATLHECTB_init_vis.mac", Action.IsGUI] ++
      (if isGUI = true then [Action.ApplyCommand "/control/execute ATLHECTB_gui.mac"] else []) ++
      [Action.SessionStart, Action.deleteUI] := by
  have hlen : ¬ a.macroName.length ≠ 0 := fun h0 => h0 ((string_length_eq_zero _).mpr h)
  unfold dispatch
  rw [if_neg hlen]

/-- C4, as the code has it: on a well-formed vector without tune error whose
last `-m` pair has the non-empty value `m`, the UI commands issued by `main`
are exactly `/process/em/verbose 0`, `/process/had/verbose 0` and
`/control/execute m`, in that order, no interactive session object is
created, asked or started, and `main` returns 0. -/
theorem main_macro_mode (mt : Bool) (ver : Nat) (conv : String → Int) (isGUI : Bool)
    (argv : List String) (m : String) (hwf : wellFormed mt argv)
    (hlast : lastValue "-m" argv = some m) (hne : m ≠ "") (htune : ¬ tuneError ver argv) :
    (main mt ver conv isGUI argv).exit = Exit.returned 0 ∧
      uiCommands (main mt ver conv isGUI argv).trace =
        ["/process/em/verbose 0", "/process/had/verbose 0", "/control/execute " ++ m] ∧
      (main mt ver conv isGUI argv).trace.filter Action.isSession = [] := by
  obtain ⟨a, reads, hreads, hmac, _, _, _, hmain⟩ := main_normal mt ver conv isGUI argv hwf htune
  have hm : a.macroName = m := by rw [hmac, hlast]; rfl
  have hne' : a.macroName ≠ "" := by rw [hm]; exact hne
  have hd := dispatch_macro isGUI a hne'
  rw [hm] at hd
  rw [hmain]
  refine ⟨rfl, ?_, ?_⟩
  · have h0 : uiCommands reads = [] := filterMap_readsBelow _ hreads (fun j => rfl)
    simp only [uiCommands_append, h0, uiCommands_bootstrap, uiCommands_ftfTuning, hd]
    rfl
  · have h0 : reads.filter Action.isSession = [] := filter_readsBelow _ hreads (fun j => rfl)
    simp only [List.filter_append, h0, filter_isSession_bootstrap_macro mt argv a hne',
      filter_isSession_ftfTuning, hd]
    rfl

theorem main_macro_mode_witness :
    (main true 1110 (fun _ => 4) true
        ["ATLHECTB", "-m", "old.mac", "-t", "4", "-m", "run.mac"]).exit = Exit.returned 0 ∧
      uiCommands (main true 1110 (fun _ => 4) true
        ["ATLHECTB", "-m", "old.mac", "-t", "4", "-m", "run.mac"]).trace =
        ["/process/em/verbose 0", "/process/had/verbose 0", "/control/execute " ++ "run.mac"] ∧
      (main true 1110 (fun _ => 4) true
        ["ATLHECTB", "-m", "old.mac", "-t", "4", "-m", "run.mac"]).trace.filter
          Action.isSession = [] :=
  main_macro_mode true 1110 (fun _ => 4) true
    ["ATLHECTB", "-m", "old.mac", "-t", "4", "-m", "run.mac"] "run.mac"
    (by decide) (by decide) (by decide) (by decide)

/-- C4 as stated fails twice.  With two `-m` pairs the vector contains the
pair `(-m, a.mac)` but the macro executed is the one of the last pair; and
with the empty string as macro value `main` starts an interactive session. -/
theorem main_macro_mode_counterexample :
    (wellFormed false ["ATLHECTB", "-m", "a.mac", "-m", "b.mac"] ∧
      "a.mac" ∈ valuesOf "-m" ["ATLHECTB", "-m", "a.mac", "-m", "b.mac"] ∧
      ¬ tuneError 1110 ["ATLHECTB", "-m", "a.mac", "-m", "b.mac"] ∧
      uiCommands (main false 1110 (fun _ => 0) false
          ["ATLHECTB", "-m", "a.mac", "-m", "b.mac"]).trace =
        ["/process/em/verbose 0", "/process/had/verbose 0", "/control/execute b.mac"] ∧
      uiCommands (main false 1110 (fun _ => 0) false
          ["ATLHECTB", "-m", "a.mac", "-m", "b.mac"]).trace ≠
        ["/process/em/verbose 0", "/process/had/verbose 0", "/control/execute " ++ "a.mac"]) ∧
    (wellFormed false ["ATLHECTB", "-m", ""] ∧
      "" ∈ valuesOf "-m" ["ATLHECTB", "-m", ""] ∧
      ¬ tuneError 1110 ["ATLHECTB", "-m", ""] ∧
      uiCommands (main false 1110 (fun _ => 0) false ["ATLHECTB", "-m", ""]).trace =
        ["/control/execute ATLHECTB_init_vis.mac"] ∧
      uiCommands (main false 1110 (fun _ => 0) false ["ATLHECTB", "-m", ""]).trace ≠
        ["/process/em/verbose 0", "/process/had/verbose 0", "/control/execute " ++ ""] ∧
      (main false 1110 (fun _ => 0) false ["ATLHECTB", "-m", ""]).trace.filter
          Action.isSession =
        [Action.newUIExecutive 3 ["ATLHECTB", "-m", ""] "", Action.IsGUI, Action.SessionStart,
          Action.deleteUI]) := by
  have e1 : uiCommands (main false 1110 (fun _ => 0) false
      ["ATLHECTB", "-m", "a.mac", "-m", "b.mac"]).trace =
      ["/process/em/verbose 0", "/process/had/verbose 0", "/control/execute b.mac"] := by
    simp [main, argLoop, applyFlag, LoopRun.after, Args.init, ftfTuning, bootstrap, dispatch,
      actionAndVis, termination, uiCommands]
    decide
  have e2 : (main false 1110 (fun _ => 0) false ["ATLHECTB", "-m", ""]).trace =
      [ Action.readArgv 1, Action.readArgv 2,
        Action.newUIExecutive 3 ["ATLHECTB", "-m", ""] "",
        Action.newRunManager false,
        Action.newDetectorConstruction,
        Action.SetUserInitialization UserInit.DetConstruction,
        Action.newPhysListFactory,
        Action.GetReferencePhysList "FTFP_BERT",
        Action.newStepLimiterPhysics,
        Action.RegisterPhysics,
        Action.SetUserInitialization UserInit.physList,
        Action.FTFTuningsInstance,
        Action.newActionInitialization,
        Action.SetUserInitialization UserInit.ActInitialization,
        Action.newVisExecutive,
        Action.visManagerInitialize,
        Action.GetUIpointer,
        Action.ApplyCommand "/control/execute ATLHECTB_init_vis.mac",
        Action.IsGUI,
        Action.SessionStart,
        Action.deleteUI,
        Action.deleteVisManager,
        Action.deleteRunManager ] := by
    simp [main, argLoop, applyFlag, LoopRun.after, Args.init, ftfTuning, bootstrap, dispatch,
      actionAndVis, termination]
  refine ⟨⟨by decide, by decide, by decide, e1, ?_⟩, by decide, by decide, by decide, ?_, ?_, ?_⟩
  · rw [e1]; decide
  · rw [e2]; rfl
  · rw [e2]; decide
  · rw [e2]; rfl

/-- C5: on a well-formed vector without `-m` pair and without tune error,
`main` creates the session object, then issues
`/control/execute ATLHECTB_init_vis.mac` as its first UI command, asks the
session whether it is graphical, issues `/control/execute ATLHECTB_gui.mac` if
and only if it is, and then starts the session; these are all its UI commands,
and `main` returns 0 once the session has ended. -/
theorem main_interactive (mt : Bool) (ver : Nat) (conv : String → Int) (isGUI : Bool)
    (argv : List String) (hwf : wellFormed mt argv) (hnom : valuesOf "-m" argv = [])
    (htune : ¬ tuneError ver argv) :
    (main mt ver conv isGUI argv).exit = Exit.returned 0 ∧
      (main mt ver conv isGUI argv).trace.filter Action.isSessionOrCommand =
        [ Action.newUIExecutive argv.length argv ((lastValue "-u" argv).getD ""),
          Action.ApplyCommand "/control/execute ATLHECTB_init_vis.mac",
          Action.IsGUI ] ++
        (if isGUI = true then [Action.ApplyCommand "/control/execute ATLHECTB_gui.mac"]
          else []) ++
        [Action.SessionStart, Action.deleteUI] ∧
      uiCommands (main mt ver conv isGUI argv).trace =
        "/control/execute ATLHECTB_init_vis.mac" ::
          (if isGUI = true then ["/control/execute ATLHECTB_gui.mac"] else []) := by
  obtain ⟨a, reads, hreads, hmac, hses, _, _, hmain⟩ :=
    main_normal mt ver conv isGUI argv hwf htune
  have hm : a.macroName = "" := by rw [hmac, lastValue_of_nil hnom]; rfl
  have hd := dispatch_session isGUI a hm
  rw [hmain]
  refine ⟨rfl, ?_, ?_⟩
  · have h0 : reads.filter Action.isSessionOrCommand = [] :=
      filter_readsBelow _ hreads (fun j => rfl)
    simp only [List.filter_append, h0, filter_isSessionOrCommand_bootstrap mt argv a hm,
      filter_isSessionOrCommand_ftfTuning, hd, hses]
    cases isGUI <;> rfl
  · have h0 : uiCommands reads = [] := filterMap_readsBelow _ hreads (fun j => rfl)
    simp only [uiCommands_append, h0, uiCommands_bootstrap, uiCommands_ftfTuning, hd]
    cases isGUI <;> rfl

theorem main_interactive_witness :
    (main false 1110 (fun _ => 0) true ["ATLHECTB", "-u", "Qt", "-pl", "FTFP_BERT"]).exit =
        Exit.returned 0 ∧
      (main false 1110 (fun _ => 0) true
          ["ATLHECTB", "-u", "Qt", "-pl", "FTFP_BERT"]).trace.filter Action.isSessionOrCommand =
        [ Action.newUIExecutive ["ATLHECTB", "-u", "Qt", "-pl", "FTFP_BERT"].length
            ["ATLHECTB", "-u", "Qt", "-pl", "FTFP_BERT"]
            ((lastValue "-u" ["ATLHECTB", "-u", "Qt", "-pl", "FTFP_BERT"]).getD ""),
          Action.ApplyCommand "/control/execute ATLHECTB_init_vis.mac",
          Action.IsGUI ] ++
        (if true = true then [Action.ApplyCommand "/control/execute ATLHECTB_gui.mac"]
          else []) ++
        [Action.SessionStart, Action.deleteUI] ∧
      uiCommands (main false 1110 (fun _ => 0) true
          ["ATLHECTB", "-u", "Qt", "-pl", "FTFP_BERT"]).trace =
        "/control/execute ATLHECTB_init_vis.mac" ::
          (if true = true then ["/control/execute ATLHECTB_gui.mac"] else []) :=
  main_interactive false 1110 (fun _ => 0) true ["ATLHECTB", "-u", "Qt", "-pl", "FTFP_BERT"]
    (by decide) (by decide) (by decide)

/-! ## Early returns and allocations -/

/-- The two usage-error returns come before any allocation: with more than 11
arguments, or with an unrecognised flag among at most 11, nothing has been
allocated when `main` returns 1. -/
theorem usage_returns_allocate_nothing (mt : Bool) (ver : Nat) (conv : String → Int)
    (isGUI : Bool) (argv : List String)
    (h : argv.length > 11 ∨
      ∃ i flag, i % 2 = 1 ∧ argv.get? i = some flag ∧ ¬ recognised mt flag) :
    (main mt ver conv isGUI argv).exit = Exit.returned 1 ∧
      (main mt ver conv isGUI argv).trace.filter Action.isAllocation = [] := by
  by_cases h11 : argv.length > 11
  · have hmain : main mt ver conv isGUI argv =
        { trace := UsageError, exit := Exit.returned 1 } := by
      unfold main
      rw [if_pos h11]
    rw [hmain]
    exact ⟨rfl, rfl⟩
  · rcases h with h | ⟨i, flag, hodd, hget, hbad⟩
    · exact absurd h h11
    · have htail : ∃ k flag', k % 2 = 0 ∧ argv.tail.get? k = some flag' ∧
          ¬ recognised mt flag' := by
        rcases i with _ | k
        · omega
        · refine ⟨k, flag, by omega, ?_, hbad⟩
          cases argv with
          | nil => simp at hget
          | cons x t => simpa using hget
      obtain ⟨hexit, reads, htrace, hreads⟩ :=
        loopOn_unrecognised mt conv argv.tail.length argv.tail 1 Args.init (le_refl _) htail
      rw [← argLoop_main] at hexit htrace
      have hmain : main mt ver conv isGUI argv =
          { trace := reads ++ UsageError, exit := Exit.returned 1 } := by
        unfold main
        rw [if_neg h11]
        simp only [hexit, htrace]
      rw [hmain]
      have h0 : reads.filter Action.isAllocation = [] :=
        filter_readsBelow _ hreads (fun j => rfl)
      refine ⟨rfl, ?_⟩
      simp only [List.filter_append, h0]
      rfl

/-- C9 fails at the tune-error return: with toolkit version 11.1.0 and the
vector `ATLHECTB -tune foo`, `main` returns 1 after it has allocated the UI
executive, the run manager, the detector construction, the physics-list
factory and the step limiter, and it has deleted none of them. -/
theorem tune_error_return_leaks :
    (main false 1110 (fun _ => 0) false ["ATLHECTB", "-tune", "foo"]).exit = Exit.returned 1 ∧
      (main false 1110 (fun _ => 0) false ["ATLHECTB", "-tune", "foo"]).trace.filter
          Action.isAllocation =
        [ Action.newUIExecutive 3 ["ATLHECTB", "-tune", "foo"] "",
          Action.newRunManager false,
          Action.newDetectorConstruction,
          Action.newPhysListFactory,
          Action.newStepLimiterPhysics ] ∧
      (main false 1110 (fun _ => 0) false ["ATLHECTB", "-tune", "foo"]).trace.filter
          Action.isDelete = [] := by
  have e : main false 1110 (fun _ => 0) false ["ATLHECTB", "-tune", "foo"] =
      { trace :=
          [ Action.readArgv 1, Action.readArgv 2,
            Action.newUIExecutive 3 ["ATLHECTB", "-tune", "foo"] "",
            Action.newRunManager false,
            Action.newDetectorConstruction,
            Action.SetUserInitialization UserInit.DetConstruction,
            Action.newPhysListFactory,
            Action.GetReferencePhysList "FTFP_BERT",
            Action.newStepLimiterPhysics,
            Action.RegisterPhysics,
            Action.SetUserInitialization UserInit.physList,
            Action.FTFTuningsInstance,
            Action.cout "----------> Using FTF alternative tune: foo <----------",
            Action.cerr "Wrong FTF Alternative Tune Name selected. ",
            Action.cerr "Geant4-11.1.0 valid names are: ",
            Action.cerr "default\nbaryon-tune2022-v0\npion-tune2022-v0\ncombined-tune2022-v0" ],
        exit := Exit.returned 1 } := by
    simp [main, argLoop, applyFlag, LoopRun.after, Args.init, ftfTuning, bootstrap,
      FTFTuneUsageError]
  rw [e]
  exact ⟨rfl, rfl, rfl⟩

/-! ## The indices read by the argument loop -/

theorem readArgv_not_mem_UsageError (j : Nat) : Action.readArgv j ∉ UsageError := by
  simp [UsageError]

/-- On any tokens, the loop entered at index `i` reads indices from `i` up to
`i + l.length` only, runs at most once per two tokens (rounded up), and reads
the index just past the tokens only if their number is odd and the last one
is a recognised flag. -/
theorem loopOn_reads (mt : Bool) (conv : String → Int) :
    ∀ (n : Nat) (l : List String) (i : Nat) (a : Args), l.length ≤ n →
      (∀ j, Action.readArgv j ∈ (loopOn mt conv i l a).trace → i ≤ j ∧ j ≤ i + l.length) ∧
      (loopOn mt conv i l a).iterations ≤ (l.length + 1) / 2 ∧
      (Action.readArgv (i + l.length) ∈ (loopOn mt conv i l a).trace →
        l.length % 2 = 1 ∧ ∃ flag, l.getLast? = some flag ∧ recognised mt flag) := by
  intro n
  induction n with
  | zero =>
      intro l i a hlen
      have hl : l = [] := List.eq_nil_of_length_eq_zero (by omega)
      subst hl
      simp [loopOn]
  | succ n ih =>
      intro l i a hlen
      match l, hlen with
      | [], _ => simp [loopOn]
      | [f], _ =>
          cases hf : applyFlag mt conv f a with
          | none =>
              simp only [loopOn, hf, List.mem_cons, Action.readArgv.injEq, List.length_singleton]
              refine ⟨?_, by decide, ?_⟩
              · rintro j (hj | hj)
                · omega
                · exact absurd hj (readArgv_not_mem_UsageError j)
              · rintro (hj | hj)
                · omega
                · exact absurd hj (readArgv_not_mem_UsageError _)
          | some assign =>
              have hrec : recognised mt f := by
                by_contra hbad
                rw [(applyFlag_eq_none_iff mt conv f a).mpr hbad] at hf
                cases hf
              simp only [loopOn, hf, List.mem_cons, Action.readArgv.injEq, List.length_singleton,
                List.mem_singleton, List.not_mem_nil, or_false]
              refine ⟨?_, by decide, ?_⟩
              · rintro j (hj | hj) <;> omega
              · intro _
                exact ⟨by simp, f, by simp, hrec⟩
      | f :: v :: rest, hlen =>
          cases hf : applyFlag mt conv f a with
          | none =>
              simp only [loopOn, hf, List.mem_cons, Action.readArgv.injEq, List.length_cons]
              refine ⟨?_, by omega, ?_⟩
              · rintro j (hj | hj)
                · omega
                · exact absurd hj (readArgv_not_mem_UsageError j)
              · rintro (hj | hj)
                · omega
                · exact absurd hj (readArgv_not_mem_UsageError _)
          | some assign =>
              obtain ⟨h1, h2, h3⟩ := ih rest (i + 2) (assign v) (by simp at hlen; omega)
              simp only [loopOn, hf, LoopRun.after, List.mem_append, List.mem_cons,
                Action.readArgv.injEq, List.mem_singleton, List.not_mem_nil, or_false,
                List.length_cons]
              refine ⟨?_, by omega, ?_⟩
              · rintro j ((hj | hj) | hj)
                · omega
                · omega
                · have := h1 j hj
                  omega
              · rintro ((hj | hj) | hj)
                · omega
                · omega
                · have hidx : i + (rest.length + 1 + 1) = i + 2 + rest.length := by omega
                  rw [hidx] at hj
                  obtain ⟨hodd, flag, hlast, hrec⟩ := h3 hj
                  refine ⟨by omega, flag, ?_, hrec⟩
                  have hne : rest ≠ [] := by
                    intro hnil
                    simp [hnil] at hodd
                  obtain ⟨y, ys, hys⟩ := List.exists_cons_of_ne_nil hne
                  rw [hys] at hlast ⊢
                  simpa using hlast

/-- C10: for a vector of odd length `argc <= 11`, every index read by the
argument loop is below `argc` and the loop body runs at most 5 times; for any
vector, the loop never reads beyond index `argc`, and it reads `argv[argc]`
only if `argc` is even and the last token is a recognised flag. -/
theorem argLoop_reads_in_range (mt : Bool) (conv : String → Int) (argv : List String) :
    (argv.length % 2 = 1 → argv.length ≤ 11 →
      (∀ j, Action.readArgv j ∈ (argLoop mt conv argv 1 Args.init).trace → j < argv.length) ∧
      (argLoop mt conv argv 1 Args.init).iterations ≤ 5) ∧
    (∀ j, Action.readArgv j ∈ (argLoop mt conv argv 1 Args.init).trace → j ≤ argv.length) ∧
    (Action.readArgv argv.length ∈ (argLoop mt conv argv 1 Args.init).trace →
      argv.length % 2 = 0 ∧ ∃ flag, argv.getLast? = some flag ∧ recognised mt flag) := by
  rw [argLoop_main]
  cases argv with
  | nil => simp [loopOn]
  | cons x t =>
      obtain ⟨h1, h2, h3⟩ := loopOn_reads mt conv t.length t 1 Args.init (le_refl _)
      simp only [List.tail_cons, List.length_cons]
      have hlast : Action.readArgv (t.length + 1) ∈ (loopOn mt conv 1 t Args.init).trace →
          (t.length + 1) % 2 = 0 ∧ ∃ flag, (x :: t).getLast? = some flag ∧ recognised mt flag := by
        intro hj
        rw [Nat.add_comm] at hj
        obtain ⟨hodd, flag, hl, hrec⟩ := h3 hj
        refine ⟨by omega, flag, ?_, hrec⟩
        have hne : t ≠ [] := by
          intro hnil
          simp [hnil] at hodd
        obtain ⟨y, ys, hys⟩ := List.exists_cons_of_ne_nil hne
        rw [hys] at hl ⊢
        simpa using hl
      refine ⟨?_, ?_, hlast⟩
      · intro hodd hle
        refine ⟨?_, by omega⟩
        intro j hj
        have hb := (h1 j hj).2
        rcases Nat.lt_or_ge j (t.length + 1) with hlt | hge
        · exact hlt
        · have hj' : j = t.length + 1 := by omega
          rw [hj'] at hj
          have := (hlast hj).1
          omega
      · intro j hj
        have := (h1 j hj).2
        omega

theorem argLoop_reads_in_range_witness :
    ((∀ j, Action.readArgv j ∈
          (argLoop false (fun _ => 0) ["ATLHECTB", "-m", "run.mac", "-pl", "QGSP_BERT"] 1
            Args.init).trace →
        j < ["ATLHECTB", "-m", "run.mac", "-pl", "QGSP_BERT"].length) ∧
      (argLoop false (fun _ => 0) ["ATLHECTB", "-m", "run.mac", "-pl", "QGSP_BERT"] 1
        Args.init).iterations ≤ 5) ∧
    (["ATLHECTB", "-m"].length % 2 = 0 ∧
      ∃ flag, ["ATLHECTB", "-m"].getLast? = some flag ∧ recognised false flag) :=
  ⟨(argLoop_reads_in_range false (fun _ => 0)
      ["ATLHECTB", "-m", "run.mac", "-pl", "QGSP_BERT"]).1 (by decide) (by decide),
   (argLoop_reads_in_range false (fun _ => 0) ["ATLHECTB", "-m"]).2.2
      (by simp [argLoop, applyFlag, Args.init])⟩

/-! ## The per-event accumulator -/

theorem EndOfEventAction_rows {D : Type} (self : ATLHECTBEventAction D)
    (m : AnalysisManager D) :
    (EndOfEventAction self m).rows =
      m.rows ++ [(self.PDGID, self.vertexkenergy, self.eleakage)] := by
  simp [EndOfEventAction, AnalysisManager.AddNtupleRow, AnalysisManager.FillNtupleIColumn,
    AnalysisManager.FillNtupleDColumn]

theorem simulateEvent_rows {D : Type} [Zero D] (callbacks : Callbacks D)
    (s : ATLHECTBEventAction D × AnalysisManager D) :
    (simulateEvent callbacks s).2.rows = s.2.rows ++ [eventRow callbacks] := by
  simp only [simulateEvent, EndOfEventAction_rows, eventRow, BeginOfEventAction]

theorem simulateEvents_cons {D : Type} [Zero D] (callbacks : Callbacks D)
    (events : List (Callbacks D)) (s : ATLHECTBEventAction D × AnalysisManager D) :
    simulateEvents (callbacks :: events) s = simulateEvents events (simulateEvent callbacks s) :=
  rfl

theorem simulateEvents_table {D : Type} [Zero D] (events : List (Callbacks D)) :
    ∀ s : ATLHECTBEventAction D × AnalysisManager D,
      (simulateEvents events s).2.rows = s.2.rows ++ events.map eventRow := by
  induction events with
  | nil =>
      intro s
      simp [simulateEvents]
  | cons callbacks events ih =>
      intro s
      rw [simulateEvents_cons, ih, simulateEvent_rows]
      simp

/-- C7: every simulated event appends exactly one row.  Whatever the fields
held before, `BeginOfEventAction` sets them to `(0, 0.0, 0.0)`;
`EndOfEventAction` appends the row (PDGID, vertexkenergy, eleakage) of the
current fields, in this column order, and nothing else; so a sequence of
events appends one row per event, in order, each row being what the callbacks
of that event made of zeroed fields: the table gains exactly as many rows as
there were events, and an event without callback appends `(0, 0.0, 0.0)`. -/
theorem one_row_per_event {D : Type} [Zero D] (events : List (Callbacks D))
    (s : ATLHECTBEventAction D × AnalysisManager D) :
    (∀ self : ATLHECTBEventAction D,
      (BeginOfEventAction self).PDGID = 0 ∧ (BeginOfEventAction self).vertexkenergy = 0 ∧
        (BeginOfEventAction self).eleakage = 0) ∧
    (∀ (self : ATLHECTBEventAction D) (m : AnalysisManager D),
      (EndOfEventAction self m).rows =
        m.rows ++ [(self.PDGID, self.vertexkenergy, self.eleakage)]) ∧
    (simulateEvents events s).2.rows = s.2.rows ++ events.map eventRow ∧
    (simulateEvents events s).2.rows.length = s.2.rows.length + events.length ∧
    (simulateEvent (fun self => self) s).2.rows = s.2.rows ++ [(0, 0, 0)] := by
  refine ⟨fun self => ⟨rfl, rfl, rfl⟩, EndOfEventAction_rows, simulateEvents_table events s, ?_, ?_⟩
  · rw [simulateEvents_table]
    simp
  · rw [simulateEvent_rows]
    rfl

end ATLHECTB
